import Mathlib

/-!
Verification of the spinta write/query pipeline core.

This development shallowly embeds the parts of the source that the checked
properties are about:

* `spinta/commands/write.py` — the write pipeline stage functions
  (`prepare_data`, `read_existing_data`, `validate_data`, `prepare_patch`)
  and the `build_data_patch_for_write` patch engine;
* `spinta/auth.py` — the `authorized` access check;
* `spinta/datasets/backends/sql/query.py` — `SqlFrom.get_table` join
  resolution;
* `spinta/backends/__init__.py` — `gen_object_id` / `is_object_id`;
* `spinta/backends/mongo/commands/write.py` — the Mongo `update` primitive.

Python values flowing through the pipeline (payload, given, saved, patch)
are modelled by the `Value` type.  The spinta `NA` sentinel
(`spinta.utils.schema.NotAvailable`, a falsy singleton equal only to
itself) is a `Value` constructor, exactly as in Python it is an ordinary
object that can sit inside dicts and lists.  Python `None` is `vnull`.
Dicts are association lists in insertion order (`VFields`); lists are
`VList`.
-/

namespace Spinta

mutual
/-- A Python value as used by the write pipeline: JSON-ish data plus the
`NA` (NotAvailable) sentinel. -/
inductive Value where
  | na
  | vnull
  | vbool (b : Bool)
  | vint (n : Int)
  | vstr (s : String)
  | varr (xs : VList)
  | vobj (fs : VFields)
deriving DecidableEq, Repr

/-- A Python list of values. -/
inductive VList where
  | nil
  | cons (head : Value) (tail : VList)
deriving DecidableEq, Repr

/-- A Python dict with string keys, kept in insertion order. -/
inductive VFields where
  | nil
  | cons (key : String) (val : Value) (rest : VFields)
deriving DecidableEq, Repr
end

namespace VList

/-- Conversion from a Lean list, for writing concrete values. -/
def ofList : List Value → VList
  | [] => .nil
  | v :: rest => .cons v (ofList rest)

def isEmpty : VList → Bool
  | .nil => true
  | .cons _ _ => false

/-- Indexing with `NA` fallback (the source only indexes lists that are
long enough). -/
def getIdx : VList → Nat → Value
  | .nil, _ => .na
  | .cons v _, 0 => v
  | .cons _ rest, n + 1 => getIdx rest n

end VList

/-- The test `name.startswith('_')` marking internal names, stated on
the character list so that it evaluates by reduction. -/
def underscoreLead (s : String) : Bool :=
  match s.data with
  | [] => false
  | c :: _ => c == '_'

namespace VFields

/-- Conversion from a Lean association list, for writing concrete
values. -/
def ofList : List (String × Value) → VFields
  | [] => .nil
  | (k, v) :: rest => .cons k v (ofList rest)

def isEmpty : VFields → Bool
  | .nil => true
  | .cons _ _ _ => false

/-- Lookup of the first binding of a key, `NA` when absent: the embedding
of `d.get(key, NA)`. -/
def get : VFields → String → Value
  | .nil, _ => .na
  | .cons k v rest, key => if k == key then v else get rest key

/-- Membership test, the embedding of `key in d`. -/
def hasKey : VFields → String → Bool
  | .nil, _ => false
  | .cons k _ rest, key => k == key || hasKey rest key

/-- Assignment `d[key] = v`: replace the first binding of `key` in place,
or append a new binding, preserving Python dict insertion-order
semantics. -/
def set : VFields → String → Value → VFields
  | .nil, key, v => .cons key v .nil
  | .cons k w rest, key, v =>
    if k == key then .cons key v rest else .cons k w (set rest key v)

def append : VFields → VFields → VFields
  | .nil, gs => gs
  | .cons k v rest, gs => .cons k v (append rest gs)

/-- The embedding of `_strip_metadata` (`spinta/commands/write.py` lines
475-478): drop every key starting with an underscore. -/
def stripMeta : VFields → VFields
  | .nil => .nil
  | .cons k v rest =>
    if underscoreLead k then stripMeta rest else .cons k v (stripMeta rest)

end VFields

namespace Value

/-- Python truthiness of a value: `NA`, `None`, `False`, `0`, `""`, `[]`
and `{}` are falsy. -/
def toBool : Value → Bool
  | .na => false
  | .vnull => false
  | .vbool b => b
  | .vint n => n != 0
  | .vstr s => s ≠ ""
  | .varr xs => !xs.isEmpty
  | .vobj fs => !fs.isEmpty

/-- Dict lookup with `NA` default on a value; on a non-dict value it
yields `NA` (the source only applies it to dicts). -/
def get : Value → String → Value
  | .vobj fs, k => fs.get k
  | _, _ => .na

/-- Membership test, `key in d`. -/
def hasKey : Value → String → Bool
  | .vobj fs, k => fs.hasKey k
  | _, _ => false

/-- List indexing with `NA` fallback. -/
def idx : Value → Nat → Value
  | .varr xs, i => xs.getIdx i
  | _, _ => .na

/-- Assignment `d[key] = v` (the source only assigns into dicts). -/
def set : Value → String → Value → Value
  | .vobj fs, k, v => .vobj (fs.set k v)
  | other, _, _ => other

end Value

mutual
/-- A property data type as dispatched on by `build_data_patch_for_write`:
`Object` (nested properties), `Array` (with an items type), and the
`DataType` fallback for scalars, which carries the declared default of its
owning property (`dtype.prop.default`; Python `None` when the manifest
declares no default). -/
inductive DType where
  | object (props : PropList)
  | array (items : DType)
  | scalar (dflt : Value)
deriving DecidableEq, Repr

/-- An ordered mapping name → data type, as `Model.properties` /
`Object.properties` (declaration order). -/
inductive PropList where
  | nil
  | cons (name : String) (dt : DType) (rest : PropList)
deriving DecidableEq, Repr
end

/-- First binding of a property name in a schema. -/
def PropList.find? : PropList → String → Option DType
  | .nil, _ => none
  | .cons n dt rest, name => if n == name then some dt else rest.find? name

mutual
/-- Whether a data type contains no array anywhere. -/
def DType.noArray : DType → Bool
  | .scalar _ => true
  | .array _ => false
  | .object props => props.noArray

/-- Whether any property type of a schema contains an array. -/
def PropList.noArray : PropList → Bool
  | .nil => true
  | .cons _ dt rest => dt.noArray && rest.noArray
end

mutual
/-- Embedding of the `build_data_patch_for_write` registrations for
`DataType`, `Array` and `Object` arguments (`spinta/commands/write.py`
lines 513-601).  A result of `Value.na` means the property is absent from
the patch. -/
def build_data_patch_for_write (dt : DType) (given saved : Value) (fill : Bool) : Value :=
  match dt with
  | .scalar dflt =>
    -- DataType registration: an absent given resolves to the declared
    -- default when filling; the value enters the patch iff it differs
    -- from saved.
    if given = .na ∧ ¬fill then .na
    else
      let g := if given = .na then dflt else given
      if g = saved then .na else g
  | .array items =>
    -- Array registration: arrays are rebuilt wholesale, never diffed.
    if given = .na ∧ ¬fill then .na
    else if given = .na then (if saved.toBool then saved else .varr .nil)
    else if given = .vnull then .vnull
    else
      match given with
      | .varr xs =>
        let patch := build_array_items items xs
        if saved = .varr patch then .na else .varr patch
      | _ =>
        -- The source iterates over `given`; a non-list cannot occur here
        -- because `load` has validated the payload shape.
        if saved = .varr .nil then .na else .varr .nil
  | .object props =>
    -- Object registration: iterate all non-internal properties when
    -- filling, else only the keys present in given; an empty patch
    -- collapses to NA (`return patch or NA`).
    let patch := build_object_props props given saved fill
    if patch.isEmpty then .na else .vobj patch

/-- The element rebuild of the `Array` registration: every element is
recomputed against `saved=NA` with `fill=True` (the source comment: array
content is always overwritten, pretending nothing was saved). -/
def build_array_items (items : DType) (xs : VList) : VList :=
  match xs with
  | .nil => .nil
  | .cons v rest =>
    .cons (build_data_patch_for_write items v .na true) (build_array_items items rest)

/-- The property loop of the `Object` registration.  When not filling the
source iterates the keys of `given` and looks each up in
`dtype.properties`; we equivalently iterate the schema restricted to keys
present in `given` (dict key order does not affect dict equality).
Child access is `given.get(prop.name, NA) if given else given`, so a falsy
`given` (such as `NA`, `None` or `{}`) is passed down unchanged, and
likewise for `saved`. -/
def build_object_props (props : PropList) (given saved : Value) (fill : Bool) : VFields :=
  match props with
  | .nil => .nil
  | .cons name dt rest =>
    let keep := if fill then !underscoreLead name else given.hasKey name
    let tail := build_object_props rest given saved fill
    if keep then
      let g := if given.toBool then given.get name else given
      let s := if saved.toBool then saved.get name else saved
      let v := build_data_patch_for_write dt g s fill
      if v = .na then tail else .cons name v tail
    else tail
end

/-- Embedding of the `build_data_patch_for_write` registration for a
`Model` argument (`spinta/commands/write.py` lines 481-510): iterate all
non-internal properties when filling, else the keys present in `given`;
child access is a plain `given.get(prop.name, NA)` (no falsiness guard)
and the result is always a dict, possibly empty. -/
def build_data_patch_for_write_model (props : PropList) (given saved : Value) (fill : Bool) : VFields :=
  match props with
  | .nil => .nil
  | .cons name dt rest =>
    let keep := if fill then !underscoreLead name else given.hasKey name
    let tail := build_data_patch_for_write_model rest given saved fill
    if keep then
      let v := build_data_patch_for_write dt (given.get name) (saved.get name) fill
      if v = .na then tail else .cons name v tail
    else tail

/-! ## The write pipeline (`spinta/commands/write.py`)

The stage functions are async generators over a stream of `DataItem`.  We
model a stream as a `List DataItem` and a stage as a function returning
the list of items it yielded together with the exception, if any, that
escaped it (an escaped exception aborts the stream: items after it are
never processed).  `report_error(error, stop_on_error)`
(`spinta.utils.errors`, not part of the snapshot) re-raises the error when
`stop_on_error` is true and merely logs it otherwise; the stages embed
that behaviour directly. -/

/-- The exceptions raised or recorded by the modelled pipeline. -/
inductive SpintaError where
  | userError (msg : String)
  | insufficientScope
  | managedProperty
  | noItemRevision
  | itemDoesNotExist (id : Value)
  | multipleRowsFound (id : Value)
deriving DecidableEq, Repr

/-- Write actions dispatched by the pipeline. -/
inductive Action where
  | insert
  | upsert
  | update
  | patch
  | delete
deriving DecidableEq, Repr

/-- The per-row unit of work of the pipeline, restricted to the fields the
model-level stages touch.  `saved` and `patch` default to Python `None`;
`given` is unset (`NA`) until `prepare_data` assigns it. -/
structure DataItem where
  action : Action
  payload : Value := .na
  given : Value := .na
  saved : Value := .vnull
  patch : Value := .vnull
  error : Option SpintaError := none
deriving DecidableEq, Repr

/-- Runs a per-item step over a stream: each step yields some items and
may let an exception escape, which aborts the rest of the stream (an
async generator that raises stops producing). -/
def runStage (f : DataItem → List DataItem × Option SpintaError) :
    List DataItem → List DataItem × Option SpintaError
  | [] => ([], none)
  | d :: rest =>
    match f d with
    | (out, some e) => (out, some e)
    | (out, none) =>
      let (outs, e) := runStage f rest
      (out ++ outs, e)

/-- One step of `prepare_data` (lines 314-336): items with an error are
re-emitted untouched; otherwise the metadata rename, `load`, `prepare`
and `simple_data_check` calls — conflated into the `loadFn` parameter —
produce `given`.  A `UserError`/`InsufficientScopeError` they raise is
caught and handed to `report_error`: re-raised before the yield when
`stop_on_error` is true, and otherwise dropped — it is not attached to
the item, which is yielded with `given` unchanged. -/
def prepare_data_item (loadFn : Value → Except SpintaError Value) (stop : Bool)
    (d : DataItem) : List DataItem × Option SpintaError :=
  if d.error.isSome then ([d], none)
  else
    match loadFn d.payload with
    | .ok g => ([{ d with given := g }], none)
    | .error e => if stop then ([], some e) else ([d], none)

/-- The `prepare_data` stage. -/
def prepare_data (loadFn : Value → Except SpintaError Value) (stop : Bool) :
    List DataItem → List DataItem × Option SpintaError :=
  runStage (prepare_data_item loadFn stop)

/-- Embedding of `_has_id_in_where` (lines 401-406). -/
def has_id_in_where (given : Value) : Bool :=
  given.hasKey "_where"
    && ((given.get "_where").get "name" == Value.vstr "eq")
    && (((given.get "_where").get "args").idx 0 == Value.vstr "_id")

/-- The value `given['_where']['args'][1]` used as the lookup id. -/
def whereVal (given : Value) : Value :=
  ((given.get "_where").get "args").idx 1

/-- The row list built by `read_existing_data` (lines 351-368): a
`getone` by `given['_where']['args'][1]`, with `ItemDoesNotExist` caught
as the empty list.  (The source marks this a temporary hack: the
commented-out intent is a `getall` with the filter as query.) -/
def rows_for (getone : Value → Option Value) (given : Value) : List Value :=
  match getone (whereVal given) with
  | some row => [row]
  | none => []

/-- The single-row reconciliation of `read_existing_data` (lines
378-391), applied when the action is UPSERT or the filter is equality on
`_id`: exactly one row populates `saved` (with `_type` stamped in), more
than one sets a `MultipleRowsFound` error, zero sets `ItemDoesNotExist`
unless the action is UPSERT.  The returned option is the exception
`report_error` re-raises when `stop_on_error` is true. -/
def read_existing_reconcile (mt : String) (stop : Bool) (d : DataItem)
    (rows : List Value) : DataItem × Option SpintaError :=
  let rows := rows.take 2
  if rows.length = 1 then
    ({ d with saved := (rows.headD .na).set "_type" (.vstr mt) }, none)
  else if rows.length > 1 then
    let e := SpintaError.multipleRowsFound ((rows.headD .na).get "_id")
    ({ d with error := some e }, if stop then some e else none)
  else if d.action ≠ .upsert then
    let e := SpintaError.itemDoesNotExist (whereVal d.given)
    ({ d with error := some e }, if stop then some e else none)
  else (d, none)

/-- One step of `read_existing_data` (lines 339-398): INSERT items pass
through; otherwise the rows are fetched (`rows_for`) and either
reconciled as a unique match, or — for a general filter — fanned out one
yielded copy per row, each with its own `saved`.  When the
reconciliation raises, the raise happens before the yield. -/
def read_existing_item (mt : String) (getone : Value → Option Value) (stop : Bool)
    (d : DataItem) : List DataItem × Option SpintaError :=
  if d.action = .insert then ([d], none)
  else
    let rows := rows_for getone d.given
    if d.action = .upsert || has_id_in_where d.given then
      match read_existing_reconcile mt stop d rows with
      | (d', none) => ([d'], none)
      | (_, some e) => ([], some e)
    else
      (rows.map (fun row => { d with saved := row.set "_type" (.vstr mt) }), none)

/-- The `read_existing_data` stage. -/
def read_existing_data (mt : String) (getone : Value → Option Value) (stop : Bool) :
    List DataItem → List DataItem × Option SpintaError :=
  runStage (read_existing_item mt getone stop)

/-- One step of `validate_data` (lines 417-447), model-level path: items
with an error skip every check but are still yielded; otherwise an
explicit `_id` requires the `set_meta_fields` scope (`check_scope`
raises `InsufficientScopeError`), `_revision` on INSERT raises
`ManagedProperty`, and `complex_data_check` (the `checkFn` parameter) may
raise.  None of these raises is caught: each aborts the stream before
the yield, whatever the fault-tolerance flag (the stage takes none). -/
def validate_item (hasSetMetaScope : Bool)
    (checkFn : DataItem → Option SpintaError) (d : DataItem) :
    List DataItem × Option SpintaError :=
  if d.error.isSome then ([d], none)
  else if d.given.hasKey "_id" && !hasSetMetaScope then
    ([], some .insufficientScope)
  else if d.action = .insert && d.given.hasKey "_revision" then
    ([], some .managedProperty)
  else
    match checkFn d with
    | some e => ([], some e)
    | none => ([d], none)

/-- The `validate_data` stage. -/
def validate_data (hasSetMetaScope : Bool) (checkFn : DataItem → Option SpintaError) :
    List DataItem → List DataItem × Option SpintaError :=
  runStage (validate_item hasSetMetaScope checkFn)

/-- The `_strip_metadata` helper lifted to a value (the source applies it
to the `given` and `saved` dicts). -/
def stripMetaV : Value → Value
  | .vobj fs => .vobj fs.stripMeta
  | v => v

/-- One step of `prepare_patch` (lines 450-472), model-level path:
compute the patch from the metadata-stripped `given` and `saved or {}`,
filling only on UPDATE; force an explicit differing `_id` into the patch
or generate a fresh one on INSERT; stamp a fresh `_revision` iff the
patch is non-empty.  `newId` and `newRev` stand for the two
`gen_object_id` draws.  There is no error guard: the step runs for every
item. -/
def prepare_patch_item (props : PropList) (newId newRev : String)
    (d : DataItem) : DataItem :=
  let savedDict := if d.saved.toBool then d.saved else .vobj .nil
  let p0 := build_data_patch_for_write_model props
    (stripMetaV d.given) (stripMetaV savedDict) (d.action = .update)
  let p1 :=
    if d.given.hasKey "_id" ∧ (d.saved = .vnull ∨ d.given.get "_id" ≠ d.saved.get "_id") then
      p0.set "_id" (d.given.get "_id")
    else if d.action = .insert then
      p0.set "_id" (.vstr newId)
    else p0
  let p2 := if p1.isEmpty then p1 else p1.set "_revision" (.vstr newRev)
  { d with patch := .vobj p2 }

/-- The `prepare_patch` stage; `gens i` supplies the generated (id,
revision) pair for the i-th item. -/
def prepare_patch (props : PropList) (gens : Nat → String × String)
    (items : List DataItem) : List DataItem :=
  items.mapIdx (fun i d => prepare_patch_item props (gens i).1 (gens i).2 d)

/-- The two backend primitives `upsert` can route an item to. -/
inductive WriteCmd where
  | insertCmd
  | updateCmd
deriving DecidableEq, Repr

/-- The routing of the `upsert` command (lines 683-702): items are
regrouped by whether `saved` is present; saved items go to `update`,
unsaved ones to `insert`. -/
def upsert_route (d : DataItem) : WriteCmd :=
  if d.saved ≠ .vnull then .updateCmd else .insertCmd

/-! ## The Mongo `update` primitive (`spinta/backends/mongo/commands/write.py`)

`update` iterates its whole input stream and issues one `update_one` per
item — it inspects neither `data.error` nor whether the patch is empty.
We model the sequence of issued calls; the `matched_count` handling needs
a live database and is outside the model. -/

/-- Keep only the available (non-`NA`) bindings: the `take(all, d)`
helper applied by `before_write`. -/
def VFields.filterAvailable : VFields → VFields
  | .nil => .nil
  | .cons k v rest =>
    if v = .na then filterAvailable rest else .cons k v (filterAvailable rest)

/-- First available of two values: the `take(key, d1, d2)` helper. -/
def takeFirstAvailable (a b : Value) : Value :=
  if a ≠ .na then a else b

/-- One issued `update_one` call: its filter fields and its `$set`
document. -/
structure MongoUpdateCall where
  filterId : Value
  filterRev : Value
  setDoc : VFields
deriving DecidableEq, Repr

/-- The model-level `before_write` for Mongo: `__id` from the patch,
`_revision` from the patch else the saved row, the transaction id, the
creation timestamp, then every property place present in the patch; `NA`
entries are dropped by the final `take(all, ...)`. -/
def mongo_before_write (txn : String) (created : Value) (places : List String)
    (d : DataItem) : VFields :=
  VFields.filterAvailable (VFields.ofList
    ([("__id", d.patch.get "_id"),
      ("_revision", takeFirstAvailable (d.patch.get "_revision") (d.saved.get "_revision")),
      ("_txn", .vstr txn),
      ("_created", created)]
      ++ places.map (fun p => (p, d.patch.get p))))

/-- The calls issued by the Mongo `update` command over a stream: one per
item, filtering on the saved row id and revision. -/
def mongo_update (txn : String) (created : Value) (places : List String)
    (items : List DataItem) : List MongoUpdateCall :=
  items.map (fun d =>
    { filterId := d.saved.get "_id"
      filterRev := d.saved.get "_revision"
      setDoc := mongo_before_write txn created places d })

/-! ## Authorization (`spinta/auth.py`, `authorized`) -/

/-- Modelled from the spec: the node access levels, ordered
`private < protected < public < open` (the `Access` enum of
`spinta.core.enums` is not part of the snapshot; the spec fixes the
order). -/
inductive Access where
  | priv
  | protected_
  | public_
  | open_
deriving DecidableEq, Repr

/-- Numeric rank of an access level, for the order comparisons. -/
def Access.rank : Access → Nat
  | .priv => 0
  | .protected_ => 1
  | .public_ => 2
  | .open_ => 3

/-- Boolean strict order on access levels. -/
def Access.lt (a b : Access) : Bool :=
  a.rank < b.rank

/-- The configuration fields `authorized` reads. -/
structure AuthConfig where
  defaultAuthClient : String
  scopePre : String
deriving DecidableEq, Repr

/-- The token fields `authorized` reads: the client id (`aud`) and the
granted scope strings. -/
structure AuthToken where
  clientId : String
  scopes : List String
deriving DecidableEq, Repr

/-- The node kinds `authorized` accepts, with the fields it reads:
the model type, the property place, the hidden flag, the enclosing
namespace name and its ancestor names, and the access level. -/
inductive AuthNode where
  | nspace (name : String) (parents : List String) (access : Access)
  | model (modelType : String) (nsName : String) (nsParents : List String) (access : Access)
  | property (modelType : String) (place : String) (hidden : Bool)
      (nsName : String) (nsParents : List String) (access : Access)
deriving DecidableEq, Repr

/-- The access level of a node. -/
def AuthNode.access : AuthNode → Access
  | .nspace _ _ a => a
  | .model _ _ _ a => a
  | .property _ _ _ _ _ a => a

/-- Modelled from the spec: `name_to_scope` of `spinta.utils.scopes` (not
part of the snapshot) renders the pattern `{prefix}{name}_{action}` —
`{prefix}{action}` when the name is empty (its length clamping is not
modelled; scope names stay injective in the name). -/
def name_to_scope (pre name act : String) : String :=
  if name = "" then pre ++ act else pre ++ name ++ "_" ++ act

/-- The scope base names `authorized` collects (lines 393-426): for
non-private nodes the inherited names — for a non-hidden property its
model type and namespace, for a model its namespace, in each case plus
all ancestor namespaces; hidden properties inherit nothing — followed by
the explicit node scope (model type plus property place for a property,
the model type for a model, the name for a namespace). -/
def authorized_scope_names : AuthNode → List String
  | .nspace name parents access =>
    (if Access.lt .priv access then parents else []) ++ [name]
  | .model mt nsName nsParents access =>
    (if Access.lt .priv access then [nsName] ++ nsParents else []) ++ [mt]
  | .property mt place hidden nsName nsParents access =>
    (if Access.lt .priv access then
      (if hidden then [] else [mt, nsName] ++ nsParents)
     else []) ++ [mt ++ "_" ++ place]

/-- The outcome of `authorized`: the anonymous-client rejection
(`AuthorizedClientsOnly`), a grant, or the missing-scope failure
(`InsufficientScopeError` when `throw` is set, `False` otherwise). -/
inductive AuthDecision where
  | authorizedClientsOnly
  | granted
  | insufficientScope
deriving DecidableEq, Repr

/-- Embedding of `authorized` (`spinta/auth.py` lines 375-446): a client
whose id is the configured default client is rejected outright on any
node below open access, before scopes are examined; otherwise the scope
names are built with `name_to_scope` and the token must hold at least
one of them (operator OR). -/
def authorized (cfg : AuthConfig) (token : AuthToken) (node : AuthNode)
    (act : String) : AuthDecision :=
  if token.clientId == cfg.defaultAuthClient && Access.lt node.access .open_ then
    .authorizedClientsOnly
  else
    let scopes := (authorized_scope_names node).map
      (fun n => name_to_scope cfg.scopePre n act)
    if scopes.any (fun s => token.scopes.contains s) then .granted
    else .insufficientScope

/-! ## SQL join resolution (`spinta/datasets/backends/sql/query.py`) -/

/-- The property fields the join builder reads: the dotted place (used
for column and join names), the owning model name, and whether the data
type is `PrimaryKey`. -/
structure SProp where
  place : String
  model : String
  isPk : Bool
deriving DecidableEq, Repr

/-- A `Ref` data type as the builder sees it: its owning property and
the referenced key properties (`refprops`). -/
structure RefDType where
  prop : SProp
  refprops : List SProp
deriving DecidableEq, Repr

/-- One element of a `ForeignProperty` chain: its accumulated name, the
`Ref` on the left and the property on the right. -/
structure FPSeg where
  name : String
  left : RefDType
  rightProp : SProp
deriving DecidableEq, Repr

/-- The name of a chain extension, as documented on
`ForeignProperty.__init__`: the place of the left property for a fresh
chain, else the previous name extended with `->` and the place. -/
def fp_name (prev : Option String) (leftPlace : String) : String :=
  match prev with
  | none => leftPlace
  | some n => n ++ "->" ++ leftPlace

/-- A column of a concrete table. -/
structure SqlColumn where
  table : String
  col : String
deriving DecidableEq, Repr

/-- A FROM clause: the base table possibly extended by joins, each join
carrying its pairwise column equalities. -/
inductive FromClause where
  | table (name : String)
  | join (l : FromClause) (rtable : String) (cond : List (SqlColumn × SqlColumn))
deriving DecidableEq, Repr

/-- The mutable state of `SqlFrom`: the name-keyed join dict and the
accumulated FROM clause. -/
structure SqlFrom where
  joins : List (String × FromClause)
  fromClause : FromClause
deriving DecidableEq, Repr

/-- The backend lookups `get_table` performs: the SQL table of a model
and a model's declared external primary-key properties. -/
structure SqlBackendInfo where
  tableOf : String → String
  pkeysOf : String → List SProp

/-- The embedding of `backend.get_column(table, prop)`. -/
def get_column (table : String) (p : SProp) : SqlColumn :=
  ⟨table, p.place⟩

/-- The right-hand key columns of a join (lines 97-107): for every
refprop, the referenced model's declared primary-key columns when the
refprop is a `PrimaryKey`, else the refprop's own column. -/
def rpkeys_for (info : SqlBackendInfo) (rtable rmodel : String)
    (refprops : List SProp) : List SqlColumn :=
  refprops.flatMap (fun rpk =>
    if rpk.isPk then (info.pkeysOf rmodel).map (get_column rtable)
    else [get_column rtable rpk])

/-- One iteration of the `SqlFrom.get_table` loop (lines 88-121): a
chain segment whose name is already joined is skipped; otherwise the
left foreign-key column list and right key column list are built, their
lengths must agree (a failed assertion is a fatal construction error,
modelled as `Except.error`), and the pairwise-equality join is appended
under the segment name. -/
def join_segment (info : SqlBackendInfo) (sf : SqlFrom) (seg : FPSeg) :
    Except String SqlFrom :=
  if (sf.joins.lookup seg.name).isSome then .ok sf
  else
    let ltable := info.tableOf seg.left.prop.model
    let lrkeys := [get_column ltable seg.left.prop]
    let rmodel := seg.rightProp.model
    let rtable := info.tableOf rmodel
    let rpkeys := rpkeys_for info rtable rmodel seg.left.refprops
    if lrkeys.length ≠ rpkeys.length then
      .error "assert len(lrkeys) == len(rpkeys)"
    else
      let condition := lrkeys.zip rpkeys
      if condition.length = 0 then .error "assert len(condition) > 0"
      else
        let newFrom := FromClause.join sf.fromClause rtable condition
        .ok ⟨sf.joins ++ [(seg.name, newFrom)], newFrom⟩

/-- The embedding of `SqlFrom.get_table`: fold the segments of the
chain through `join_segment` and return the table of the last segment's
right model. -/
def get_table (info : SqlBackendInfo) (sf : SqlFrom) (chain : List FPSeg) :
    Except String (SqlFrom × String) :=
  match chain.getLast? with
  | none => .error "empty chain"
  | some lastSeg =>
    (chain.foldlM (join_segment info) sf).map
      (fun sf2 => (sf2, info.tableOf lastSeg.rightProp.model))

/-! ## Object id generation and recognition (`spinta/backends/__init__.py`) -/

/-- The lowercase hex digit of a nibble. -/
def hexChar (n : Nat) : Char :=
  "0123456789abcdef".toList.getD n '0'

/-- Hex digit recognition, upper or lower case. -/
def isHexDigitB (c : Char) : Bool :=
  c.isDigit || ('a' ≤ c && c ≤ 'f') || ('A' ≤ c && c ≤ 'F')

/-- Numeric value of a hex digit. -/
def hexVal (c : Char) : Nat :=
  if c.isDigit then c.toNat - '0'.toNat
  else if 'a' ≤ c && c ≤ 'f' then c.toNat - 'a'.toNat + 10
  else if 'A' ≤ c && c ≤ 'F' then c.toNat - 'A'.toNat + 10
  else 0

/-- The 32 nibbles of a 128-bit number, most significant first. -/
def natNibbles (r : Nat) : List Nat :=
  (List.range 32).map (fun i => r / 16 ^ (31 - i) % 16)

/-- The nibbles of `uuid.uuid4()` seeded with the random draw `r`: the
version nibble (index 12) is forced to 4 and the variant nibble (index
16) to `10xx`. -/
def uuid4Nibbles (r : Nat) : List Nat :=
  ((natNibbles r).set 12 4).set 16 (8 + (natNibbles r).getD 16 0 % 4)

/-- Hyphenation of 32 hex characters into the canonical 8-4-4-4-12
shape. -/
def insertDashes (h : List Char) : List Char :=
  h.take 8 ++ '-' :: ((h.drop 8).take 4 ++ '-' ::
    ((h.drop 12).take 4 ++ '-' :: ((h.drop 16).take 4 ++ '-' :: h.drop 20)))

/-- Embedding of the generic `gen_object_id` (lines 149-151):
`str(uuid.uuid4())`, with `r` standing for the 128-bit random draw. -/
def gen_object_id (r : Nat) : String :=
  ⟨insertDashes ((uuid4Nibbles r).map hexChar)⟩

/-- The version extracted by `uuid.UUID(value)`: hyphens are removed,
exactly 32 hex digits must remain, and the version is the nibble at
index 12.  (The source additionally accepts decorated forms — braces,
a `urn:uuid:` lead — around the same 32-digit core.) -/
def uuidVersion (s : String) : Option Nat :=
  let cs := s.data.filter (fun c => c ≠ '-')
  if cs.length = 32 ∧ cs.all isHexDigitB then some (hexVal (cs.getD 12 '0'))
  else none

/-- Embedding of the `is_object_id` registrations for `str` (lines
182-187: `uuid.UUID(value).version == 4`, `ValueError` giving `False`)
and for a non-string `object` (lines 190-194: always `False`). -/
def is_object_id (v : Value) : Bool :=
  match v with
  | .vstr s => uuidVersion s == some 4
  | _ => false

/-! ## Theorems -/

theorem natNibbles_length (r : Nat) : (natNibbles r).length = 32 := by
  simp [natNibbles]

theorem uuid4Nibbles_length (r : Nat) : (uuid4Nibbles r).length = 32 := by
  simp [uuid4Nibbles, natNibbles]

theorem mem_natNibbles_lt (r : Nat) : ∀ x ∈ natNibbles r, x < 16 := by
  intro x hx
  simp only [natNibbles, List.mem_map, List.mem_range] at hx
  obtain ⟨i, _, rfl⟩ := hx
  exact Nat.mod_lt _ (by norm_num)

theorem mem_uuid4Nibbles_lt (r : Nat) : ∀ x ∈ uuid4Nibbles r, x < 16 := by
  intro x hx
  unfold uuid4Nibbles at hx
  rcases List.mem_or_eq_of_mem_set hx with hx1 | hx1
  · rcases List.mem_or_eq_of_mem_set hx1 with hx2 | hx2
    · exact mem_natNibbles_lt r x hx2
    · omega
  · have h4 : (natNibbles r).getD 16 0 % 4 < 4 := Nat.mod_lt _ (by norm_num)
    omega

theorem hexChar_hex : ∀ n < 16, isHexDigitB (hexChar n) = true := by decide

theorem hexChar_ne_dash : ∀ n < 16, hexChar n ≠ '-' := by decide

theorem filter_no_dash (l : List Char) (hl : ∀ c ∈ l, c ≠ '-') :
    l.filter (fun c => c ≠ '-') = l := by
  apply List.filter_eq_self.mpr
  intro c hc
  simpa using hl c hc

theorem filter_insertDashes (h : List Char) (hh : ∀ c ∈ h, c ≠ '-') :
    (insertDashes h).filter (fun c => c ≠ '-') = h := by
  have htake8 := filter_no_dash (h.take 8) (fun c hc => hh c (List.take_subset _ _ hc))
  have htake1 := filter_no_dash ((h.drop 8).take 4)
    (fun c hc => hh c (List.drop_subset _ _ (List.take_subset _ _ hc)))
  have htake2 := filter_no_dash ((h.drop 12).take 4)
    (fun c hc => hh c (List.drop_subset _ _ (List.take_subset _ _ hc)))
  have htake3 := filter_no_dash ((h.drop 16).take 4)
    (fun c hc => hh c (List.drop_subset _ _ (List.take_subset _ _ hc)))
  have hdrop20 := filter_no_dash (h.drop 20) (fun c hc => hh c (List.drop_subset _ _ hc))
  have e1 : (h.drop 16).take 4 ++ h.drop 20 = h.drop 16 := by
    have e : h.drop 20 = (h.drop 16).drop 4 := by
      rw [List.drop_drop]
    rw [e, List.take_append_drop]
  have e2 : (h.drop 12).take 4 ++ h.drop 16 = h.drop 12 := by
    have e : h.drop 16 = (h.drop 12).drop 4 := by
      rw [List.drop_drop]
    rw [e, List.take_append_drop]
  have e3 : (h.drop 8).take 4 ++ h.drop 12 = h.drop 8 := by
    have e : h.drop 12 = (h.drop 8).drop 4 := by
      rw [List.drop_drop]
    rw [e, List.take_append_drop]
  unfold insertDashes
  simp only [List.filter_append, List.filter_cons]
  norm_num
  simp only [ne_eq, decide_not] at htake8 htake1 htake2 htake3 hdrop20
  rw [htake8, htake1, htake2, htake3, hdrop20]
  rw [e1, e2, e3, List.take_append_drop]

theorem uuidVersion_gen (r : Nat) : uuidVersion (gen_object_id r) = some 4 := by
  have hlen : (uuid4Nibbles r).length = 32 := uuid4Nibbles_length r
  have hmem : ∀ c ∈ (uuid4Nibbles r).map hexChar, c ≠ '-' := by
    intro c hc
    rw [List.mem_map] at hc
    obtain ⟨n, hn, rfl⟩ := hc
    exact hexChar_ne_dash n (mem_uuid4Nibbles_lt r n hn)
  have hdata : (gen_object_id r).data = insertDashes ((uuid4Nibbles r).map hexChar) := rfl
  have hfil : (gen_object_id r).data.filter (fun c => c ≠ '-')
      = (uuid4Nibbles r).map hexChar := by
    rw [hdata]
    exact filter_insertDashes _ hmem
  have hlenm : ((uuid4Nibbles r).map hexChar).length = 32 := by
    simp [hlen]
  have hhex : ((uuid4Nibbles r).map hexChar).all isHexDigitB = true := by
    rw [List.all_eq_true]
    intro c hc
    rw [List.mem_map] at hc
    obtain ⟨n, hn, rfl⟩ := hc
    exact hexChar_hex n (mem_uuid4Nibbles_lt r n hn)
  have h12m : (12 : Nat) < ((uuid4Nibbles r).map hexChar).length := by
    rw [hlenm]
    norm_num
  have hv12 : ((uuid4Nibbles r).map hexChar).getD 12 '0' = '4' := by
    rw [List.getD_eq_getElem _ _ h12m, List.getElem_map]
    have h16ne : (16 : Nat) ≠ 12 := by norm_num
    have hlt12 : (12 : Nat) < (uuid4Nibbles r).length := by
      rw [hlen]
      norm_num
    have hidx : (uuid4Nibbles r)[12] = 4 := by
      unfold uuid4Nibbles
      rw [List.getElem_set_ne h16ne, List.getElem_set_self]
    rw [hidx]
    decide
  unfold uuidVersion
  rw [hfil]
  simp only [hlenm, hhex, and_self, if_pos, hv12]
  decide

/-- C10: the generic backend id generation and recognition round-trip:
`gen_object_id` renders a fresh version-4 UUID, `is_object_id` accepts a
string exactly when it parses as a version-4 UUID, rejects every
non-string value, and hence accepts every generated id. -/
theorem c10_object_id_roundtrip :
    (∀ r : Nat, is_object_id (.vstr (gen_object_id r)) = true)
    ∧ (∀ s : String, is_object_id (.vstr s) = true ↔ uuidVersion s = some 4)
    ∧ ∀ v : Value, (∀ s, v ≠ .vstr s) → is_object_id v = false := by
  refine ⟨?_, ?_, ?_⟩
  · intro r
    simp [is_object_id, uuidVersion_gen r]
  · intro s
    simp [is_object_id]
  · intro v hv
    cases v <;> first | rfl | exact absurd rfl (hv _)

/-- C10 witness: a concrete generated id is accepted and a concrete
non-string is rejected. -/
theorem c10_object_id_roundtrip_witness :
    is_object_id (.vstr (gen_object_id 123456789)) = true
    ∧ is_object_id (.vint 4) = false :=
  ⟨c10_object_id_roundtrip.1 123456789,
   c10_object_id_roundtrip.2.2 (.vint 4) (fun s h => by cases h)⟩

/-- C4: array patch computation never diffs elements: an absent `given`
without fill is absent from the patch; a present `given` rebuilds the
whole array, element by element with `fill=true` and no saved
counterpart, and the rebuilt array is omitted from the patch iff it
equals `saved`, else it becomes the patch value wholesale. -/
theorem c4_array_patch_wholesale (items : DType) :
    (∀ saved : Value,
      build_data_patch_for_write (.array items) .na saved false = .na)
    ∧ (∀ (xs : VList) (saved : Value) (fill : Bool),
        build_data_patch_for_write (.array items) (.varr xs) saved fill
          = if saved = .varr (build_array_items items xs) then .na
            else .varr (build_array_items items xs))
    ∧ build_array_items items .nil = .nil
    ∧ ∀ (v : Value) (rest : VList),
        build_array_items items (.cons v rest)
          = .cons (build_data_patch_for_write items v .na true)
              (build_array_items items rest) := by
  refine ⟨?_, ?_, ?_, fun v rest => ?_⟩
  · intro saved
    simp [build_data_patch_for_write]
  · intro xs saved fill
    simp [build_data_patch_for_write]
  · simp [build_array_items]
  · simp [build_array_items]

/-- C2 counterexample: under `fill=true` with `given = {}`, an
array-typed property does not resolve to its declared default — it
resolves to whatever is saved, so the result depends on the saved tree
(here yielding the saved array `["x"]`, and differing between two saved
trees although the schema and its defaults are fixed). -/
theorem c2_counterexample :
    build_data_patch_for_write_model
        (.cons "a" (.array (.scalar .vnull)) .nil) (.vobj .nil)
        (.vobj (.cons "a" (.varr (.cons (.vstr "x") .nil)) .nil)) true
      = .cons "a" (.varr (.cons (.vstr "x") .nil)) .nil
    ∧ build_data_patch_for_write_model
        (.cons "a" (.array (.scalar .vnull)) .nil) (.vobj .nil)
        (.vobj (.cons "a" (.varr (.cons (.vstr "y") .nil)) .nil)) true
      ≠ build_data_patch_for_write_model
        (.cons "a" (.array (.scalar .vnull)) .nil) (.vobj .nil)
        (.vobj (.cons "a" (.varr (.cons (.vstr "x") .nil)) .nil)) true := by
  have ev : ∀ s : String,
      build_data_patch_for_write_model
          (.cons "a" (.array (.scalar .vnull)) .nil) (.vobj .nil)
          (.vobj (.cons "a" (.varr (.cons (.vstr s) .nil)) .nil)) true
        = .cons "a" (.varr (.cons (.vstr s) .nil)) .nil := by
    intro s
    simp [build_data_patch_for_write_model, build_data_patch_for_write, build_array_items,
      underscoreLead, Value.get, VFields.get, Value.hasKey, VFields.hasKey, Value.toBool,
      VFields.isEmpty, VList.isEmpty]
  refine ⟨ev "x", ?_⟩
  rw [ev "x", ev "y"]
  decide

/-- With `given = {}` and no filling, the model-level patch engine keeps
no property at all. -/
theorem model_nofill_empty_given :
    ∀ (props : PropList) (saved : Value),
      build_data_patch_for_write_model props (.vobj .nil) saved false = .nil
  | .nil, _ => by simp [build_data_patch_for_write_model]
  | .cons n dt rest, saved => by
    have ih := model_nofill_empty_given rest saved
    simp [build_data_patch_for_write_model, Value.hasKey, VFields.hasKey, ih]

/-- A non-internal scalar property whose declared default differs from
its saved value makes the fill patch non-empty. -/
theorem model_fill_scalar_contributes :
    ∀ (props : PropList) (saved : Value) (name : String) (dflt : Value),
      props.find? name = some (.scalar dflt) →
      underscoreLead name = false →
      dflt ≠ .na →
      dflt ≠ saved.get name →
      build_data_patch_for_write_model props (.vobj .nil) saved true ≠ .nil
  | .nil, saved, name, dflt => by
    intro hfind
    exact absurd hfind (by simp [PropList.find?])
  | .cons n dt rest, saved, name, dflt => by
    intro hfind hmeta hna hdiff
    rw [PropList.find?] at hfind
    by_cases hn : n = name
    · subst hn
      simp only [beq_self_eq_true, if_pos] at hfind
      injection hfind with hdt
      subst hdt
      have hval : build_data_patch_for_write (.scalar dflt)
          ((Value.vobj .nil).get n) (saved.get n) true = dflt := by
        rw [show (Value.vobj VFields.nil).get n = Value.na from rfl]
        simp [build_data_patch_for_write, hdiff]
      simp only [build_data_patch_for_write_model, hmeta, Bool.not_false, if_pos, hval]
      simp [hna]
    · have hfind2 : rest.find? name = some (.scalar dflt) := by
        simpa [hn] using hfind
      have htail := model_fill_scalar_contributes rest saved name dflt hfind2 hmeta hna hdiff
      simp only [build_data_patch_for_write_model]
      by_cases hkeep : (!underscoreLead n) = true
      · simp only [hkeep, if_pos]
        by_cases hv : build_data_patch_for_write dt ((Value.vobj .nil).get n)
            (saved.get n) true = .na
        · simpa [hv] using htail
        · simp [hv]
      · simpa [hkeep] using htail

/-- C2 (amended): with `given = {}`, `fill=false` yields an empty patch
for every schema; under `fill=true` a scalar property absent from
`given` resolves to its declared default and enters the patch iff that
default differs from its saved value, while an array property resolves
to its saved value (or `[]` when falsy) instead of a default; the two
calls differ whenever some non-internal scalar property has a declared
default different from its saved value. -/
theorem c2_fill_semantics :
    (∀ (props : PropList) (saved : Value),
      build_data_patch_for_write_model props (.vobj .nil) saved false = .nil)
    ∧ (∀ dflt saved : Value,
        build_data_patch_for_write (.scalar dflt) .na saved true
          = if dflt = saved then .na else dflt)
    ∧ (∀ (items : DType) (saved : Value),
        build_data_patch_for_write (.array items) .na saved true
          = if saved.toBool then saved else .varr .nil)
    ∧ ∀ (props : PropList) (saved : Value) (name : String) (dflt : Value),
        props.find? name = some (.scalar dflt) →
        underscoreLead name = false →
        dflt ≠ .na →
        dflt ≠ saved.get name →
        build_data_patch_for_write_model props (.vobj .nil) saved true ≠ .nil := by
  refine ⟨model_nofill_empty_given, ?_, ?_, model_fill_scalar_contributes⟩
  · intro dflt saved
    simp [build_data_patch_for_write]
  · intro items saved
    simp [build_data_patch_for_write]

/-- C2 witness: a schema whose single scalar property has default `"d"`
and saved value `"s"` produces a non-empty fill patch. -/
theorem c2_fill_semantics_witness :
    build_data_patch_for_write_model (.cons "x" (.scalar (.vstr "d")) .nil)
        (.vobj .nil) (.vobj (.cons "x" (.vstr "s") .nil)) true ≠ .nil :=
  c2_fill_semantics.2.2.2 (.cons "x" (.scalar (.vstr "d")) .nil)
    (.vobj (.cons "x" (.vstr "s") .nil)) "x" (.vstr "d")
    (by decide) (by decide) (by decide) (by decide)

/-- C3 counterexample: a pair with `given == saved` (the same tree twice)
whose patch under `fill=false` is not empty: the array property is
rebuilt with `fill=true`, which adds the omitted default `f: None` to the
element, so the rebuilt array differs from the saved one and the whole
array lands in the patch. -/
theorem c3_counterexample :
    build_data_patch_for_write_model
        (.cons "a" (.array (.object (.cons "f" (.scalar .vnull)
            (.cons "g" (.scalar .vnull) .nil)))) .nil)
        (.vobj (.cons "a" (.varr (.cons (.vobj (.cons "g" (.vstr "x") .nil)) .nil)) .nil))
        (.vobj (.cons "a" (.varr (.cons (.vobj (.cons "g" (.vstr "x") .nil)) .nil)) .nil))
        false
      = .cons "a" (.varr (.cons (.vobj (.cons "f" .vnull
          (.cons "g" (.vstr "x") .nil))) .nil)) .nil
    ∧ build_data_patch_for_write_model
        (.cons "a" (.array (.object (.cons "f" (.scalar .vnull)
            (.cons "g" (.scalar .vnull) .nil)))) .nil)
        (.vobj (.cons "a" (.varr (.cons (.vobj (.cons "g" (.vstr "x") .nil)) .nil)) .nil))
        (.vobj (.cons "a" (.varr (.cons (.vobj (.cons "g" (.vstr "x") .nil)) .nil)) .nil))
        false
      ≠ .nil := by
  have ev : build_data_patch_for_write_model
        (.cons "a" (.array (.object (.cons "f" (.scalar .vnull)
            (.cons "g" (.scalar .vnull) .nil)))) .nil)
        (.vobj (.cons "a" (.varr (.cons (.vobj (.cons "g" (.vstr "x") .nil)) .nil)) .nil))
        (.vobj (.cons "a" (.varr (.cons (.vobj (.cons "g" (.vstr "x") .nil)) .nil)) .nil))
        false
      = .cons "a" (.varr (.cons (.vobj (.cons "f" .vnull
          (.cons "g" (.vstr "x") .nil))) .nil)) .nil := by
    simp [build_data_patch_for_write_model, build_data_patch_for_write, build_array_items,
      build_object_props, underscoreLead, Value.get, VFields.get, Value.hasKey,
      VFields.hasKey, Value.toBool, VFields.isEmpty, VList.isEmpty]
  exact ⟨ev, by rw [ev]; simp⟩

mutual
/-- With identical given and saved, an array-free data type contributes
nothing to the patch. -/
theorem noArray_selfpatch_dt : ∀ dt : DType, dt.noArray = true → ∀ v : Value,
    build_data_patch_for_write dt v v false = .na
  | .scalar dflt, _, v => by
    by_cases hv : v = Value.na <;> simp [build_data_patch_for_write, hv]
  | .array _, h, _ => by simp [DType.noArray] at h
  | .object props, h, v => by
    have hp := noArray_selfpatch_props props (by simpa [DType.noArray] using h) v
    simp [build_data_patch_for_write, hp, VFields.isEmpty]

/-- With identical given and saved, an array-free object property loop
yields the empty patch. -/
theorem noArray_selfpatch_props : ∀ props : PropList, props.noArray = true → ∀ v : Value,
    build_object_props props v v false = .nil
  | .nil, _, v => by simp [build_object_props]
  | .cons n dt rest, h, v => by
    have h12 : dt.noArray = true ∧ rest.noArray = true := by
      simpa [PropList.noArray, Bool.and_eq_true] using h
    have hd := noArray_selfpatch_dt dt h12.1 (if v.toBool then v.get n else v)
    have hr := noArray_selfpatch_props rest h12.2 v
    simp [build_object_props, hd, hr]
end

/-- With identical given and saved, an array-free model schema yields
the empty patch. -/
theorem model_noArray_selfpatch :
    ∀ props : PropList, props.noArray = true → ∀ v : Value,
      build_data_patch_for_write_model props v v false = .nil
  | .nil, _, v => by simp [build_data_patch_for_write_model]
  | .cons n dt rest, h, v => by
    have h12 : dt.noArray = true ∧ rest.noArray = true := by
      simpa [PropList.noArray, Bool.and_eq_true] using h
    have hd := noArray_selfpatch_dt dt h12.1 (v.get n)
    have hr := model_noArray_selfpatch rest h12.2 v
    simp [build_data_patch_for_write_model, hd, hr]

/-- C3 (amended): for `given == saved` with `fill=false` the patch is
empty provided the schema has no array-typed property (array rebuild can
otherwise make it non-empty); an item whose computed patch is empty is
not an error and gets no fresh revision — its patch stays `{}` and every
other field is untouched; but the pipeline does not drop it: the Mongo
`update` primitive issues exactly one write call per stream item,
whatever its patch or error. -/
theorem c3_empty_patch_noop :
    (∀ (props : PropList) (v : Value), props.noArray = true →
      build_data_patch_for_write_model props v v false = .nil)
    ∧ (∀ (props : PropList) (newId newRev : String) (d : DataItem),
        build_data_patch_for_write_model props (stripMetaV d.given)
            (stripMetaV (if d.saved.toBool then d.saved else .vobj .nil))
            (d.action = .update) = .nil →
        d.given.hasKey "_id" = false →
        d.action ≠ .insert →
        prepare_patch_item props newId newRev d = { d with patch := .vobj .nil })
    ∧ ∀ (txn : String) (created : Value) (places : List String) (items : List DataItem),
        (mongo_update txn created places items).length = items.length := by
  refine ⟨fun props v h => model_noArray_selfpatch props h v, ?_, ?_⟩
  · intro props newId newRev d h0 h1 h2
    simp [prepare_patch_item, h0, h1, h2, VFields.isEmpty]
  · intro txn created places items
    simp [mongo_update]

/-- C3 witness: a PATCH item whose given equals its saved row ends with
an empty patch, no revision, and no error. -/
theorem c3_empty_patch_noop_witness :
    prepare_patch_item (.cons "x" (.scalar .vnull) .nil) "I" "R"
        { action := .patch,
          given := .vobj (.cons "x" (.vstr "v") .nil),
          saved := .vobj (.cons "x" (.vstr "v") .nil) }
      = { action := .patch,
          given := .vobj (.cons "x" (.vstr "v") .nil),
          saved := .vobj (.cons "x" (.vstr "v") .nil),
          patch := .vobj .nil } :=
  c3_empty_patch_noop.2.1 (.cons "x" (.scalar .vnull) .nil) "I" "R"
    { action := .patch,
      given := .vobj (.cons "x" (.vstr "v") .nil),
      saved := .vobj (.cons "x" (.vstr "v") .nil) }
    (by simp [stripMetaV, VFields.stripMeta, underscoreLead, Value.toBool, VFields.isEmpty,
          build_data_patch_for_write_model, build_data_patch_for_write, Value.hasKey,
          VFields.hasKey, Value.get, VFields.get])
    (by simp [Value.hasKey, VFields.hasKey])
    (by simp)

/-- C1 counterexample: an UPDATE item whose `error` is already set is not
re-emitted unchanged by `prepare_patch` — the stage has no error guard,
computes a patch from `given` and stamps a fresh revision. -/
theorem c1_counterexample :
    prepare_patch_item (.cons "name" (.scalar .vnull) .nil) "I" "R"
        { action := .update,
          given := .vobj (.cons "name" (.vstr "x") .nil),
          error := some (.itemDoesNotExist (.vstr "k")) }
      ≠ { action := .update,
          given := .vobj (.cons "name" (.vstr "x") .nil),
          error := some (.itemDoesNotExist (.vstr "k")) } := by
  have ev : prepare_patch_item (.cons "name" (.scalar .vnull) .nil) "I" "R"
        { action := .update,
          given := .vobj (.cons "name" (.vstr "x") .nil),
          error := some (.itemDoesNotExist (.vstr "k")) }
      = { action := .update,
          given := .vobj (.cons "name" (.vstr "x") .nil),
          error := some (.itemDoesNotExist (.vstr "k")),
          patch := .vobj (.cons "name" (.vstr "x")
            (.cons "_revision" (.vstr "R") .nil)) } := by
    simp [prepare_patch_item, stripMetaV, VFields.stripMeta, underscoreLead,
      build_data_patch_for_write_model, build_data_patch_for_write, Value.get, VFields.get,
      Value.hasKey, VFields.hasKey, Value.toBool, VFields.isEmpty, VFields.set]
  rw [ev]
  simp

/-- C1 (amended): `prepare_data` and `validate_data` re-emit an item
whose `error` is set unchanged, but `read_existing_data` and
`prepare_patch` have no error guard: read-existing still queries the
backend and overwrites `saved` for any non-INSERT item, and
`prepare_patch` computes the patch identically whatever the `error`
field holds. -/
theorem c1_error_short_circuit :
    (∀ (loadFn : Value → Except SpintaError Value) (stop : Bool) (d : DataItem),
        d.error.isSome = true → prepare_data_item loadFn stop d = ([d], none))
    ∧ (∀ (hs : Bool) (cf : DataItem → Option SpintaError) (d : DataItem),
        d.error.isSome = true → validate_item hs cf d = ([d], none))
    ∧ (∀ (mt : String) (getone : Value → Option Value) (stop : Bool)
          (d : DataItem) (row : Value),
        d.action = .update →
        has_id_in_where d.given = true →
        getone (whereVal d.given) = some row →
        read_existing_item mt getone stop d
          = ([{ d with saved := row.set "_type" (.vstr mt) }], none))
    ∧ ∀ (props : PropList) (i r : String) (d : DataItem) (e : Option SpintaError),
        prepare_patch_item props i r { d with error := e }
          = { prepare_patch_item props i r d with error := e } := by
  refine ⟨?_, ?_, ?_, ?_⟩
  · intro loadFn stop d h
    simp [prepare_data_item, h]
  · intro hs cf d h
    simp [validate_item, h]
  · intro mt getone stop d row h1 h2 h3
    simp [read_existing_item, h1, h2, rows_for, h3, read_existing_reconcile]
  · intro props i r d e
    rfl

/-- C1 witness: a concrete errored item passes `prepare_data` unchanged,
and a concrete errored UPDATE item still gets its `saved` populated from
the backend by read-existing. -/
theorem c1_error_short_circuit_witness :
    prepare_data_item (fun v => .ok v) true
        { action := .update, error := some (.itemDoesNotExist (.vstr "k")) }
      = ([{ action := .update, error := some (.itemDoesNotExist (.vstr "k")) }], none)
    ∧ read_existing_item "m"
        (fun v => if v = .vstr "k"
          then some (.vobj (.cons "_id" (.vstr "k") .nil)) else none) false
        { action := .update,
          given := .vobj (.cons "_where" (.vobj (.cons "name" (.vstr "eq")
            (.cons "args" (.varr (.cons (.vstr "_id")
              (.cons (.vstr "k") .nil))) .nil))) .nil),
          error := some (.itemDoesNotExist (.vstr "k")) }
      = ([{ action := .update,
            given := .vobj (.cons "_where" (.vobj (.cons "name" (.vstr "eq")
              (.cons "args" (.varr (.cons (.vstr "_id")
                (.cons (.vstr "k") .nil))) .nil))) .nil),
            error := some (.itemDoesNotExist (.vstr "k")),
            saved := (Value.vobj (.cons "_id" (.vstr "k") .nil)).set "_type" (.vstr "m") }],
         none) :=
  ⟨c1_error_short_circuit.1 (fun v => .ok v) true
      { action := .update, error := some (.itemDoesNotExist (.vstr "k")) } rfl,
   c1_error_short_circuit.2.2.1 "m"
      (fun v => if v = .vstr "k"
        then some (.vobj (.cons "_id" (.vstr "k") .nil)) else none) false
      { action := .update,
        given := .vobj (.cons "_where" (.vobj (.cons "name" (.vstr "eq")
          (.cons "args" (.varr (.cons (.vstr "_id")
            (.cons (.vstr "k") .nil))) .nil))) .nil),
        error := some (.itemDoesNotExist (.vstr "k")) }
      (.vobj (.cons "_id" (.vstr "k") .nil)) rfl (by decide) rfl⟩

/-- C6: in the read-existing stage, an item that is not an INSERT and
whose filter is equality on `_id` (or whose action is UPSERT) goes
through the unique-match reconciliation over the fetched rows: zero rows
set an `ItemDoesNotExist` error unless the action is UPSERT, which
instead proceeds untouched with no saved row and is later routed to the
insert primitive; one row populates `saved`; two or more rows set a
`MultipleRowsFound` error and leave `saved` untouched — no row is
silently chosen. -/
theorem c6_unique_match_policy :
    (∀ (mt : String) (getone : Value → Option Value) (stop : Bool) (d : DataItem),
        d.action ≠ .insert →
        (d.action = .upsert ∨ has_id_in_where d.given = true) →
        read_existing_item mt getone stop d
          = match read_existing_reconcile mt stop d (rows_for getone d.given) with
            | (d2, none) => ([d2], none)
            | (_, some e) => ([], some e))
    ∧ (∀ (mt : String) (stop : Bool) (d : DataItem), d.action ≠ .upsert →
        read_existing_reconcile mt stop d []
          = ({ d with error := some (.itemDoesNotExist (whereVal d.given)) },
             if stop then some (.itemDoesNotExist (whereVal d.given)) else none))
    ∧ (∀ (mt : String) (stop : Bool) (d : DataItem), d.action = .upsert →
        read_existing_reconcile mt stop d [] = (d, none)
        ∧ (d.saved = .vnull → upsert_route d = .insertCmd))
    ∧ (∀ (mt : String) (stop : Bool) (d : DataItem) (row : Value),
        read_existing_reconcile mt stop d [row]
          = ({ d with saved := row.set "_type" (.vstr mt) }, none))
    ∧ ∀ (mt : String) (stop : Bool) (d : DataItem) (r1 r2 : Value) (rest : List Value),
        read_existing_reconcile mt stop d (r1 :: r2 :: rest)
          = ({ d with error := some (.multipleRowsFound (r1.get "_id")) },
             if stop then some (.multipleRowsFound (r1.get "_id")) else none) := by
  refine ⟨?_, ?_, ?_, ?_, ?_⟩
  · intro mt getone stop d h1 h2
    rcases h2 with h2 | h2
    · simp [read_existing_item, h1, h2]
    · by_cases hu : d.action = Action.upsert <;>
        simp [read_existing_item, h1, h2, hu]
  · intro mt stop d h
    simp [read_existing_reconcile, h]
  · intro mt stop d h
    exact ⟨by simp [read_existing_reconcile, h], fun hs => by simp [upsert_route, hs]⟩
  · intro mt stop d row
    simp [read_existing_reconcile]
  · intro mt stop d r1 r2 rest
    simp [read_existing_reconcile]

/-- C6 witness: concrete zero-, one- and two-row reconciliations behave
as stated. -/
theorem c6_unique_match_policy_witness :
    read_existing_reconcile "m" false { action := .update } []
      = ({ action := .update,
           error := some (.itemDoesNotExist (whereVal (DataItem.mk .update .na .na
             .vnull .vnull none).given)) }, none)
    ∧ read_existing_reconcile "m" false { action := .upsert } [] = ({ action := .upsert }, none)
    ∧ read_existing_reconcile "m" false { action := .update }
        [.vobj (.cons "_id" (.vstr "a") .nil),
         .vobj (.cons "_id" (.vstr "b") .nil)]
      = ({ action := .update,
           error := some (.multipleRowsFound
             ((Value.vobj (.cons "_id" (.vstr "a") .nil)).get "_id")) }, none) :=
  ⟨by
    have h := c6_unique_match_policy.2.1 "m" false { action := .update } (by decide)
    simpa using h,
   (c6_unique_match_policy.2.2.1 "m" false { action := .upsert } rfl).1,
   by
    have h := c6_unique_match_policy.2.2.2.2 "m" false { action := .update }
      (.vobj (.cons "_id" (.vstr "a") .nil))
      (.vobj (.cons "_id" (.vstr "b") .nil)) []
    simpa using h⟩

/-- C7: evaluating the read-existing stage at an UPDATE item whose
filter is a general predicate (`eq(code, "lt")`, not on `_id`) against a
backend holding three rows that satisfy it: the stage looks up
`getone(args[1])`, finds nothing, and yields zero items — no fan-out of
one DataItem per matching row happens. -/
theorem c7_general_filter_no_fanout :
    read_existing_item "country"
      (fun v =>
        if v = .vstr "id1" then
          some (.vobj (.cons "_id" (.vstr "id1") (.cons "code" (.vstr "lt") .nil)))
        else if v = .vstr "id2" then
          some (.vobj (.cons "_id" (.vstr "id2") (.cons "code" (.vstr "lt") .nil)))
        else if v = .vstr "id3" then
          some (.vobj (.cons "_id" (.vstr "id3") (.cons "code" (.vstr "lt") .nil)))
        else none)
      false
      { action := .update,
        given := .vobj (.cons "_where" (.vobj (.cons "name" (.vstr "eq")
          (.cons "args" (.varr (.cons (.vstr "code")
            (.cons (.vstr "lt") .nil))) .nil))) .nil) }
      = ([], none) := by
  rfl

/-- C8 counterexample: a three-item batch whose middle item is an INSERT
carrying `_revision`: `validate_data` raises `ManagedProperty` as an
uncaught exception (it takes no fault-tolerance flag at all), so the
stream aborts after the first item and the third sibling is never
processed — the error is not attached to the item's `error` field. -/
theorem c8_counterexample :
    validate_data true (fun _ => none)
      [{ action := .update, given := .vobj (.cons "x" (.vstr "1") .nil) },
       { action := .insert, given := .vobj (.cons "_revision" (.vstr "r") .nil) },
       { action := .update, given := .vobj (.cons "y" (.vstr "2") .nil) }]
      = ([{ action := .update, given := .vobj (.cons "x" (.vstr "1") .nil) }],
         some .managedProperty) := by
  rfl

/-- C8 (amended): `prepare_data` catches user-input and scope errors and
hands them to `report_error`: with `stop_on_error` false they are
dropped — the item continues with `error` still unset — and with true
they abort the stream; `read_existing_data` attaches conflict errors to
the item's `error` field and aborts only when `stop_on_error` is true;
but `validate_data` raises metadata violations such as `ManagedProperty`
unconditionally, aborting the remainder of the batch, since it takes no
fault-tolerance flag. -/
theorem c8_error_propagation :
    (∀ (loadFn : Value → Except SpintaError Value) (d : DataItem) (e : SpintaError),
        d.error = none → loadFn d.payload = .error e →
        prepare_data_item loadFn false d = ([d], none))
    ∧ (∀ (loadFn : Value → Except SpintaError Value) (d : DataItem) (e : SpintaError),
        d.error = none → loadFn d.payload = .error e →
        prepare_data_item loadFn true d = ([], some e))
    ∧ (∀ (mt : String) (d : DataItem) (r1 r2 : Value) (rest : List Value),
        (read_existing_reconcile mt false d (r1 :: r2 :: rest)).1.error
            = some (.multipleRowsFound (r1.get "_id"))
        ∧ (read_existing_reconcile mt false d (r1 :: r2 :: rest)).2 = none)
    ∧ ∀ (cf : DataItem → Option SpintaError) (d : DataItem),
        d.error = none → d.action = .insert → d.given.hasKey "_revision" = true →
        validate_item true cf d = ([], some .managedProperty) := by
  refine ⟨?_, ?_, ?_, ?_⟩
  · intro loadFn d e h1 h2
    simp [prepare_data_item, h1, h2]
  · intro loadFn d e h1 h2
    simp [prepare_data_item, h1, h2]
  · intro mt d r1 r2 rest
    constructor <;> simp [read_existing_reconcile]
  · intro cf d h1 h2 h3
    simp [validate_item, h1, h2, h3]

/-- C8 witness: a concrete failing load is dropped under fault
tolerance, aborts under stop-on-error, and a concrete INSERT with
`_revision` aborts validation. -/
theorem c8_error_propagation_witness :
    prepare_data_item (fun _ => .error (.userError "bad")) false { action := .insert }
      = ([{ action := .insert }], none)
    ∧ prepare_data_item (fun _ => .error (.userError "bad")) true { action := .insert }
      = ([], some (.userError "bad"))
    ∧ validate_item true (fun _ => none)
        { action := .insert, given := .vobj (.cons "_revision" (.vstr "r") .nil) }
      = ([], some .managedProperty) :=
  ⟨c8_error_propagation.1 (fun _ => .error (.userError "bad"))
      { action := .insert } (.userError "bad") rfl rfl,
   c8_error_propagation.2.1 (fun _ => .error (.userError "bad"))
      { action := .insert } (.userError "bad") rfl rfl,
   c8_error_propagation.2.2.2 (fun _ => none)
      { action := .insert, given := .vobj (.cons "_revision" (.vstr "r") .nil) }
      rfl rfl rfl⟩

/-- C5: the authorization check — an anonymous (default-client) caller
is rejected with the authorized-clients-only outcome on every node below
open access, whatever scopes the token holds; a non-hidden property is
granted iff the token holds the property scope, or — when the node
access is above private — the owning model scope or an enclosing
namespace (or ancestor) scope; a hidden property is granted only by the
explicit property scope, even if the model scope is held. -/
theorem c5_authorized_scope_rule :
    (∀ (cfg : AuthConfig) (token : AuthToken) (node : AuthNode) (act : String),
        token.clientId = cfg.defaultAuthClient →
        Access.lt node.access .open_ = true →
        authorized cfg token node act = .authorizedClientsOnly)
    ∧ (∀ (cfg : AuthConfig) (token : AuthToken) (mt place nsName : String)
          (nsParents : List String) (access : Access) (act : String),
        ¬(token.clientId = cfg.defaultAuthClient ∧ Access.lt access .open_ = true) →
        (authorized cfg token (.property mt place false nsName nsParents access) act
            = .granted
          ↔ (name_to_scope cfg.scopePre (mt ++ "_" ++ place) act ∈ token.scopes
             ∨ (Access.lt .priv access = true
                ∧ (name_to_scope cfg.scopePre mt act ∈ token.scopes
                   ∨ name_to_scope cfg.scopePre nsName act ∈ token.scopes
                   ∨ ∃ p ∈ nsParents,
                       name_to_scope cfg.scopePre p act ∈ token.scopes)))))
    ∧ ∀ (cfg : AuthConfig) (token : AuthToken) (mt place nsName : String)
          (nsParents : List String) (access : Access) (act : String),
        ¬(token.clientId = cfg.defaultAuthClient ∧ Access.lt access .open_ = true) →
        (authorized cfg token (.property mt place true nsName nsParents access) act
            = .granted
          ↔ name_to_scope cfg.scopePre (mt ++ "_" ++ place) act ∈ token.scopes) := by
  have hcond : ∀ (cfg : AuthConfig) (token : AuthToken) (access : Access),
      ¬(token.clientId = cfg.defaultAuthClient ∧ Access.lt access .open_ = true) →
      (token.clientId == cfg.defaultAuthClient && Access.lt access .open_) = false := by
    intro cfg token access h
    by_cases h1 : token.clientId = cfg.defaultAuthClient
    · have h2 : Access.lt access .open_ = false := by
        cases hlt : Access.lt access .open_
        · rfl
        · exact absurd ⟨h1, hlt⟩ h
      simp [h2]
    · simp [beq_eq_false_iff_ne.mpr h1]
  have hgr : ∀ (cfg : AuthConfig) (token : AuthToken) (node : AuthNode) (act : String),
      (token.clientId == cfg.defaultAuthClient && Access.lt node.access .open_) = false →
      (authorized cfg token node act = .granted ↔
        ∃ n ∈ authorized_scope_names node,
          name_to_scope cfg.scopePre n act ∈ token.scopes) := by
    intro cfg token node act hc
    simp [authorized, hc, List.any_eq_true, List.mem_map, List.elem_iff]
  refine ⟨?_, ?_, ?_⟩
  · intro cfg token node act h1 h2
    simp [authorized, h1, h2]
  · intro cfg token mt place nsName nsParents access act h
    have hc := hcond cfg token access h
    rw [hgr cfg token (.property mt place false nsName nsParents access) act hc]
    by_cases hp : Access.lt .priv access = true
    · simp only [authorized_scope_names, hp, if_true]
      constructor
      · rintro ⟨n, hn, hin⟩
        rcases List.mem_append.mp hn with h1 | h1
        · rcases List.mem_cons.mp h1 with rfl | h2
          · exact Or.inr ⟨trivial, Or.inl hin⟩
          · rcases List.mem_cons.mp h2 with rfl | h3
            · exact Or.inr ⟨trivial, Or.inr (Or.inl hin)⟩
            · exact Or.inr ⟨trivial, Or.inr (Or.inr ⟨n, h3, hin⟩)⟩

        · rcases List.mem_cons.mp h1 with rfl | h2
          · exact Or.inl hin
          · exact absurd h2 (List.not_mem_nil n)
      · rintro (hin | ⟨_, hm | hns | ⟨p, hpmem, hpin⟩⟩)
        · exact ⟨mt ++ "_" ++ place, by simp, hin⟩
        · exact ⟨mt, by simp, hm⟩
        · exact ⟨nsName, by simp, hns⟩
        · exact ⟨p, by simp [hpmem], hpin⟩
    · simp only [authorized_scope_names, hp, if_false]
      simp [hp]
  · intro cfg token mt place nsName nsParents access act h
    have hc := hcond cfg token access h
    rw [hgr cfg token (.property mt place true nsName nsParents access) act hc]
    by_cases hp : Access.lt .priv access = true <;>
      simp [authorized_scope_names, hp]

/-- C5 witness: with a default client `anon`, an anonymous token is
turned away from a public property regardless of its scopes; a client
holding only the model scope reaches a non-hidden public property but
not a hidden one. -/
theorem c5_authorized_scope_rule_witness :
    authorized ⟨"anon", "spinta_"⟩ ⟨"anon", ["spinta_mymodel_getall"]⟩
        (.property "mymodel" "p1" false "ns" [] .public_) "getall"
      = .authorizedClientsOnly
    ∧ authorized ⟨"anon", "spinta_"⟩ ⟨"client1", ["spinta_mymodel_getall"]⟩
        (.property "mymodel" "p1" false "ns" [] .public_) "getall"
      = .granted
    ∧ authorized ⟨"anon", "spinta_"⟩ ⟨"client1", ["spinta_mymodel_getall"]⟩
        (.property "mymodel" "p1" true "ns" [] .public_) "getall"
      ≠ .granted := by
  refine ⟨?_, ?_, ?_⟩
  · exact c5_authorized_scope_rule.1 ⟨"anon", "spinta_"⟩
      ⟨"anon", ["spinta_mymodel_getall"]⟩
      (.property "mymodel" "p1" false "ns" [] .public_) "getall" rfl (by decide)
  · refine (c5_authorized_scope_rule.2.1 ⟨"anon", "spinta_"⟩
      ⟨"client1", ["spinta_mymodel_getall"]⟩ "mymodel" "p1" "ns" [] .public_ "getall"
      (by simp)).mpr ?_
    refine Or.inr ⟨by decide, Or.inl ?_⟩
    simp [name_to_scope]
  · intro hg
    have hmem := (c5_authorized_scope_rule.2.2 ⟨"anon", "spinta_"⟩
      ⟨"client1", ["spinta_mymodel_getall"]⟩ "mymodel" "p1" "ns" [] .public_ "getall"
      (by simp)).mp hg
    simp [name_to_scope] at hmem

theorem lookup_append_of_isSome (l1 l2 : List (String × FromClause)) (k : String)
    (h : (l1.lookup k).isSome = true) : ((l1 ++ l2).lookup k) = l1.lookup k := by
  induction l1 with
  | nil => simp [List.lookup] at h
  | cons p rest ih =>
    rcases p with ⟨a, b⟩
    by_cases hk : (k == a) = true
    · simp [List.lookup, hk]
    · have hk2 : (k == a) = false := by simpa using hk
      simp only [List.lookup, hk2] at h
      simp only [List.cons_append, List.lookup, hk2]
      exact ih h

theorem lookup_append_singleton_self (l : List (String × FromClause)) (k : String)
    (f : FromClause) : (((l ++ [(k, f)]).lookup k)).isSome = true := by
  induction l with
  | nil => simp [List.lookup]
  | cons p rest ih =>
    rcases p with ⟨a, b⟩
    by_cases hk : (k == a) = true
    · simp [List.lookup, hk]
    · have hk2 : (k == a) = false := by simpa using hk
      simp [List.lookup, hk2, ih]

theorem lookup_none_iff_not_mem_keys (l : List (String × FromClause)) (k : String) :
    (l.lookup k).isSome = false ↔ k ∉ l.map Prod.fst := by
  induction l with
  | nil => simp [List.lookup]
  | cons p rest ih =>
    rcases p with ⟨a, b⟩
    by_cases hk : (k == a) = true
    · have hke : k = a := by simpa using hk
      simp [List.lookup, hk, hke]
    · have hk2 : (k == a) = false := by simpa using hk
      have hne : ¬(k = a) := by simpa using hk2
      simp [List.lookup, hk2, ih, hne]

/-- A successful `join_segment` either skips (the name was already
joined) or appends exactly one pairwise join under the segment name. -/
theorem join_segment_cases (info : SqlBackendInfo) (sf sf2 : SqlFrom) (seg : FPSeg)
    (h : join_segment info sf seg = .ok sf2) :
    (sf2 = sf ∧ (sf.joins.lookup seg.name).isSome = true)
    ∨ ((sf.joins.lookup seg.name).isSome = false
       ∧ sf2.joins = sf.joins ++ [(seg.name, sf2.fromClause)]
       ∧ ∃ rk, rpkeys_for info (info.tableOf seg.rightProp.model) seg.rightProp.model
             seg.left.refprops = [rk]
         ∧ sf2.fromClause = .join sf.fromClause (info.tableOf seg.rightProp.model)
             [(get_column (info.tableOf seg.left.prop.model) seg.left.prop, rk)]) := by
  by_cases hin : (sf.joins.lookup seg.name).isSome = true
  · left
    refine ⟨?_, hin⟩
    simp only [join_segment, hin, if_pos] at h
    injection h with h2
    exact h2.symm
  · right
    have hin2 : (sf.joins.lookup seg.name).isSome = false := Bool.eq_false_iff.mpr hin
    simp only [join_segment, hin2, Bool.false_eq_true, if_false] at h
    by_cases h1 : (rpkeys_for info (info.tableOf seg.rightProp.model)
        seg.rightProp.model seg.left.refprops).length = 1
    · obtain ⟨rk, hrk⟩ := List.length_eq_one.mp h1
      rw [hrk] at h
      rw [if_neg (by simp)] at h
      rw [if_neg (by simp [List.zip])] at h
      injection h with h2
      subst h2
      exact ⟨hin2, rfl, rk, hrk, rfl⟩
    · rw [if_pos (fun he => h1 (by simpa using he.symm))] at h
      cases h

/-- A length mismatch between left and right key columns makes
`join_segment` fail rather than build a join. -/
theorem join_segment_mismatch_fails (info : SqlBackendInfo) (sf : SqlFrom) (seg : FPSeg)
    (h1 : (sf.joins.lookup seg.name).isSome = false)
    (h2 : (rpkeys_for info (info.tableOf seg.rightProp.model) seg.rightProp.model
        seg.left.refprops).length ≠ 1) :
    ∃ msg, join_segment info sf seg = .error msg := by
  simp only [join_segment, h1, Bool.false_eq_true, if_false]
  rw [if_pos (fun he => h2 (by simpa using he.symm))]
  exact ⟨_, rfl⟩

/-- New joins preserve the presence of every previously joined name. -/
theorem join_segment_mono (info : SqlBackendInfo) (sf sf2 : SqlFrom) (seg : FPSeg)
    (h : join_segment info sf seg = .ok sf2) (k : String)
    (hk : (sf.joins.lookup k).isSome = true) :
    (sf2.joins.lookup k).isSome = true := by
  rcases join_segment_cases info sf sf2 seg h with ⟨rfl, _⟩ | ⟨_, hj, _⟩
  · exact hk
  · rw [hj, lookup_append_of_isSome _ _ _ hk]
    exact hk

/-- After a successful `join_segment`, the segment name is joined. -/
theorem join_segment_present (info : SqlBackendInfo) (sf sf2 : SqlFrom) (seg : FPSeg)
    (h : join_segment info sf seg = .ok sf2) :
    (sf2.joins.lookup seg.name).isSome = true := by
  rcases join_segment_cases info sf sf2 seg h with ⟨rfl, hin⟩ | ⟨_, hj, _⟩
  · exact hin
  · rw [hj]
    exact lookup_append_singleton_self _ _ _

/-- A `join_segment` on an already-joined name is the identity. -/
theorem join_segment_skip (info : SqlBackendInfo) (sf : SqlFrom) (seg : FPSeg)
    (h : (sf.joins.lookup seg.name).isSome = true) :
    join_segment info sf seg = .ok sf := by
  simp [join_segment, h]

theorem fold_join_present (info : SqlBackendInfo) :
    ∀ (chain : List FPSeg) (sf sf2 : SqlFrom),
      chain.foldlM (join_segment info) sf = .ok sf2 →
      (∀ k, (sf.joins.lookup k).isSome = true → (sf2.joins.lookup k).isSome = true)
      ∧ ∀ seg ∈ chain, (sf2.joins.lookup seg.name).isSome = true := by
  intro chain
  induction chain with
  | nil =>
    intro sf sf2 h
    cases h
    exact ⟨fun k hk => hk, by simp⟩
  | cons seg rest ih =>
    intro sf sf2 h
    simp only [List.foldlM_cons] at h
    cases hstep : join_segment info sf seg with
    | error e => rw [hstep] at h; cases h
    | ok sf1 =>
      rw [hstep] at h
      have h2 : List.foldlM (join_segment info) sf1 rest = .ok sf2 := h
      obtain ⟨hmono, hall⟩ := ih sf1 sf2 h2
      refine ⟨fun k hk => hmono k (join_segment_mono info sf sf1 seg hstep k hk), ?_⟩
      intro s hs
      rcases List.mem_cons.mp hs with rfl | hs2
      · exact hmono s.name (join_segment_present info sf sf1 s hstep)
      · exact hall s hs2

theorem fold_join_skip_all (info : SqlBackendInfo) :
    ∀ (chain : List FPSeg) (sf : SqlFrom),
      (∀ seg ∈ chain, (sf.joins.lookup seg.name).isSome = true) →
      chain.foldlM (join_segment info) sf = .ok sf := by
  intro chain
  induction chain with
  | nil => intro sf _; rfl
  | cons seg rest ih =>
    intro sf hall
    simp only [List.foldlM_cons]
    rw [join_segment_skip info sf seg (hall seg (by simp))]
    show List.foldlM (join_segment info) sf rest = .ok sf
    exact ih sf (fun s hs => hall s (List.mem_cons_of_mem _ hs))

theorem fold_join_nodup (info : SqlBackendInfo) :
    ∀ (chain : List FPSeg) (sf sf2 : SqlFrom),
      chain.foldlM (join_segment info) sf = .ok sf2 →
      (sf.joins.map Prod.fst).Nodup → (sf2.joins.map Prod.fst).Nodup := by
  intro chain
  induction chain with
  | nil =>
    intro sf sf2 h hn
    cases h
    exact hn
  | cons seg rest ih =>
    intro sf sf2 h hn
    simp only [List.foldlM_cons] at h
    cases hstep : join_segment info sf seg with
    | error e => rw [hstep] at h; cases h
    | ok sf1 =>
      rw [hstep] at h
      have h2 : List.foldlM (join_segment info) sf1 rest = .ok sf2 := h
      refine ih sf1 sf2 h2 ?_
      rcases join_segment_cases info sf sf1 seg hstep with ⟨rfl, _⟩ | ⟨habs, hj, _⟩
      · exact hn
      · rw [hj, List.map_append]
        simp only [List.map_cons, List.map_nil]
        rw [List.nodup_append]
        refine ⟨hn, by simp, ?_⟩
        intro a ha hb
        simp only [List.mem_singleton] at hb
        subst hb
        exact absurd ha ((lookup_none_iff_not_mem_keys sf.joins seg.name).mp habs)

/-- C9: join resolution — a successfully resolved chain is idempotent
(resolving it again changes nothing: every reference path is joined at
most once however many expressions traverse it); the join-name keys stay
duplicate-free; a left/right key-column count mismatch is a fatal
construction error, never a silently built join; and every join actually
built pairs the single left foreign-key column with the single right key
column. -/
theorem c9_join_dedup_and_pairing :
    (∀ (info : SqlBackendInfo) (sf sf2 : SqlFrom) (chain : List FPSeg) (t : String),
        get_table info sf chain = .ok (sf2, t) →
        get_table info sf2 chain = .ok (sf2, t))
    ∧ (∀ (info : SqlBackendInfo) (sf sf2 : SqlFrom) (chain : List FPSeg) (t : String),
        get_table info sf chain = .ok (sf2, t) →
        (sf.joins.map Prod.fst).Nodup → (sf2.joins.map Prod.fst).Nodup)
    ∧ (∀ (info : SqlBackendInfo) (sf : SqlFrom) (seg : FPSeg),
        (sf.joins.lookup seg.name).isSome = false →
        (rpkeys_for info (info.tableOf seg.rightProp.model) seg.rightProp.model
            seg.left.refprops).length ≠ 1 →
        ∃ msg, join_segment info sf seg = .error msg)
    ∧ ∀ (info : SqlBackendInfo) (sf sf2 : SqlFrom) (seg : FPSeg),
        join_segment info sf seg = .ok sf2 →
        (sf2 = sf ∧ (sf.joins.lookup seg.name).isSome = true)
        ∨ ((sf.joins.lookup seg.name).isSome = false
           ∧ sf2.joins = sf.joins ++ [(seg.name, sf2.fromClause)]
           ∧ ∃ rk, rpkeys_for info (info.tableOf seg.rightProp.model)
                 seg.rightProp.model seg.left.refprops = [rk]
             ∧ sf2.fromClause = .join sf.fromClause (info.tableOf seg.rightProp.model)
                 [(get_column (info.tableOf seg.left.prop.model) seg.left.prop, rk)]) := by
  have hfold_of : ∀ (info : SqlBackendInfo) (sf sf2 : SqlFrom) (chain : List FPSeg)
      (t : String) (lastSeg : FPSeg),
      chain.getLast? = some lastSeg →
      get_table info sf chain = .ok (sf2, t) →
      chain.foldlM (join_segment info) sf = .ok sf2
        ∧ info.tableOf lastSeg.rightProp.model = t := by
    intro info sf sf2 chain t lastSeg hlast h
    unfold get_table at h
    rw [hlast] at h
    cases hfold : chain.foldlM (join_segment info) sf with
    | error e =>
      rw [hfold] at h
      simp [Except.map] at h
    | ok sfx =>
      rw [hfold] at h
      simp only [Except.map] at h
      injection h with h2
      have hsfx : sfx = sf2 := congrArg Prod.fst h2
      have ht : info.tableOf lastSeg.rightProp.model = t := congrArg Prod.snd h2
      subst hsfx
      exact ⟨rfl, ht⟩
  refine ⟨?_, ?_, join_segment_mismatch_fails, join_segment_cases⟩
  · intro info sf sf2 chain t h
    cases hlast : chain.getLast? with
    | none =>
      unfold get_table at h
      rw [hlast] at h
      cases h
    | some lastSeg =>
      obtain ⟨hfold, ht⟩ := hfold_of info sf sf2 chain t lastSeg hlast h
      have hall := (fold_join_present info chain sf sf2 hfold).2
      unfold get_table
      rw [hlast, fold_join_skip_all info chain sf2 hall]
      simp [Except.map, ht]
  · intro info sf sf2 chain t h hn
    cases hlast : chain.getLast? with
    | none =>
      unfold get_table at h
      rw [hlast] at h
      cases h
    | some lastSeg =>
      obtain ⟨hfold, _⟩ := hfold_of info sf sf2 chain t lastSeg hlast h
      exact fold_join_nodup info chain sf sf2 hfold hn

/-- C9 witness: resolving a one-segment chain against an empty join set
builds one pairwise join and is idempotent; a composite right key (two
columns against one foreign-key column) fails the construction. -/
theorem c9_join_dedup_and_pairing_witness :
    get_table
        ⟨fun m => m ++ "_t", fun _ => []⟩
        ⟨[("country", .join (.table "city_t") "country_t"
            [(⟨"city_t", "country"⟩, ⟨"country_t", "id"⟩)])],
         .join (.table "city_t") "country_t"
           [(⟨"city_t", "country"⟩, ⟨"country_t", "id"⟩)]⟩
        [⟨"country", ⟨⟨"country", "city", false⟩, [⟨"id", "country", false⟩]⟩,
          ⟨"name", "country", false⟩⟩]
      = .ok (⟨[("country", .join (.table "city_t") "country_t"
                [(⟨"city_t", "country"⟩, ⟨"country_t", "id"⟩)])],
              .join (.table "city_t") "country_t"
                [(⟨"city_t", "country"⟩, ⟨"country_t", "id"⟩)]⟩, "country_t")
    ∧ ∃ msg, join_segment
        ⟨fun m => m ++ "_t", fun _ => [⟨"k1", "country", false⟩, ⟨"k2", "country", false⟩]⟩
        ⟨[], .table "city_t"⟩
        ⟨"country", ⟨⟨"country", "city", false⟩, [⟨"pk", "country", true⟩]⟩,
          ⟨"name", "country", false⟩⟩
      = .error msg := by
  constructor
  · exact c9_join_dedup_and_pairing.1
      ⟨fun m => m ++ "_t", fun _ => []⟩
      ⟨[], .table "city_t"⟩
      ⟨[("country", .join (.table "city_t") "country_t"
          [(⟨"city_t", "country"⟩, ⟨"country_t", "id"⟩)])],
       .join (.table "city_t") "country_t"
         [(⟨"city_t", "country"⟩, ⟨"country_t", "id"⟩)]⟩
      [⟨"country", ⟨⟨"country", "city", false⟩, [⟨"id", "country", false⟩]⟩,
        ⟨"name", "country", false⟩⟩]
      "country_t" (by rfl)
  · exact c9_join_dedup_and_pairing.2.2.1
      ⟨fun m => m ++ "_t", fun _ => [⟨"k1", "country", false⟩, ⟨"k2", "country", false⟩]⟩
      ⟨[], .table "city_t"⟩
      ⟨"country", ⟨⟨"country", "city", false⟩, [⟨"pk", "country", true⟩]⟩,
        ⟨"name", "country", false⟩⟩
      (by rfl) (by decide)

end Spinta
